import Mathlib

/-!
Verification of the fake-jobs record query pipeline in `src/scraper.py`.

The Python source is shallowly embedded here:

* `PyDate` models `datetime.datetime` values produced by
  `datetime.strptime` (time-of-day components are always zero in this
  program, so only year/month/day are kept; comparison is lexicographic,
  as it is on `datetime` objects with equal time parts).
* `strptimeYmd` / `strptimeBdY` model CPython's `_strptime` for the three
  format strings `"%Y-%m-%d"`, `"%b %d, %Y"`, `"%B %d, %Y"`: `%Y` matches
  exactly four digits, `%m` matches the regex `1[0-2]|0[1-9]|[1-9]`, `%d`
  matches `3[01]|[12]\x5cd|0[1-9]|[1-9]| [1-9]`, a space in the format
  matches one or more whitespace characters, month names match
  case-insensitively, the match must cover the whole string, and the
  matched numbers must form a valid calendar date (`datetime` raises
  `ValueError` otherwise, which `_parse_date` turns into trying the next
  format).  Regex alternatives are tried in order with backtracking; the
  backtracking here additionally reruns on calendar-validation failure,
  which is harmless because for these three fixed patterns at most one
  alternative can complete a whole-string match (the alternatives demand
  conflicting characters at the same position).
* Strings are lowered with `lowerStr`, a per-character ASCII lowercase map
  (`str.lower` restricted to the ASCII inputs this program manipulates);
  Python's substring test `a in b` is `substrOf`.
-/

namespace JobSearch

/-- A `datetime.datetime` with zero time-of-day, as produced by
`datetime.strptime` in `scraper.py`. -/
structure PyDate where
  year : Nat
  month : Nat
  day : Nat
deriving DecidableEq, Repr

/-- `datetime` comparison `a < b` (lexicographic on year, month, day;
the time components are all zero here). -/
def PyDate.Lt (a b : PyDate) : Prop :=
  a.year < b.year ∨
    (a.year = b.year ∧ (a.month < b.month ∨ (a.month = b.month ∧ a.day < b.day)))

instance (a b : PyDate) : Decidable (PyDate.Lt a b) := by
  unfold PyDate.Lt; infer_instance

/-- `datetime.min`, i.e. `0001-01-01`. -/
def datetime_min : PyDate := ⟨1, 1, 1⟩

/-- Numeric value of a decimal digit character. -/
def digitVal (c : Char) : Nat := c.toNat - '0'.toNat

/-- `%Y`: exactly four decimal digits (CPython `_strptime` regex
`\x5cd\x5cd\x5cd\x5cd`). -/
def parse4Digits : List Char → Option (Nat × List Char)
  | a :: b :: c :: d :: rest =>
    if a.isDigit && b.isDigit && c.isDigit && d.isDigit then
      some ((((digitVal a) * 10 + digitVal b) * 10 + digitVal c) * 10 + digitVal d, rest)
    else none
  | _ => none

/-- `%m`: regex alternatives `1[0-2]`, `0[1-9]`, `[1-9]`, in order. -/
def monthAlts (s : List Char) : List (Nat × List Char) :=
  (match s with
   | '1' :: c :: rest => if '0' ≤ c ∧ c ≤ '2' then [(10 + digitVal c, rest)] else []
   | _ => []) ++
  (match s with
   | '0' :: c :: rest => if '1' ≤ c ∧ c ≤ '9' then [(digitVal c, rest)] else []
   | _ => []) ++
  (match s with
   | c :: rest => if '1' ≤ c ∧ c ≤ '9' then [(digitVal c, rest)] else []
   | _ => [])

/-- `%d`: regex alternatives `3[01]`, `[12]\x5cd`, `0[1-9]`, `[1-9]`,
`' '[1-9]`, in order. -/
def dayAlts (s : List Char) : List (Nat × List Char) :=
  (match s with
   | '3' :: c :: rest => if c = '0' ∨ c = '1' then [(30 + digitVal c, rest)] else []
   | _ => []) ++
  (match s with
   | c :: d :: rest =>
     if (c = '1' ∨ c = '2') && d.isDigit then [(digitVal c * 10 + digitVal d, rest)] else []
   | _ => []) ++
  (match s with
   | '0' :: c :: rest => if '1' ≤ c ∧ c ≤ '9' then [(digitVal c, rest)] else []
   | _ => []) ++
  (match s with
   | c :: rest => if '1' ≤ c ∧ c ≤ '9' then [(digitVal c, rest)] else []
   | _ => []) ++
  (match s with
   | ' ' :: c :: rest => if '1' ≤ c ∧ c ≤ '9' then [(digitVal c, rest)] else []
   | _ => [])

/-- Python regex `\s` character class (ASCII part). -/
def pyIsSpace (c : Char) : Bool :=
  c = ' ' || c = '\t' || c = '\n' || c = '\r' || c = '\x0b' || c = '\x0c'

/-- `\s+`, which a literal space in a `strptime` format is replaced by:
one mandatory whitespace character then greedily any further whitespace
(the next token is never whitespace, so greedy matching is exact). -/
def skipWs1 : List Char → Option (List Char)
  | c :: rest => if pyIsSpace c then some (rest.dropWhile pyIsSpace) else none
  | [] => none

/-- Gregorian leap year, as `datetime` validates. -/
def isLeap (y : Nat) : Bool := y % 4 = 0 && (y % 100 ≠ 0 || y % 400 = 0)

/-- Number of days in a month, as `datetime` validates. -/
def daysInMonth (y m : Nat) : Nat :=
  if m = 2 then (if isLeap y then 29 else 28)
  else if m = 4 ∨ m = 6 ∨ m = 9 ∨ m = 11 then 30
  else 31

/-- The `datetime(year, month, day)` constructor: `ValueError` (here
`none`) unless the triple is a valid proleptic Gregorian date in years
1–9999. -/
def mkDatetime (y m d : Nat) : Option PyDate :=
  if 1 ≤ y ∧ y ≤ 9999 ∧ 1 ≤ m ∧ m ≤ 12 ∧ 1 ≤ d ∧ d ≤ daysInMonth y m then
    some ⟨y, m, d⟩
  else none

/-- `datetime.strptime(s, "%Y-%m-%d")`, returning `none` for `ValueError`. -/
def strptimeYmd (s : List Char) : Option PyDate := do
  let (y, s1) ← parse4Digits s
  match s1 with
  | '-' :: s2 =>
    (monthAlts s2).findSome? (fun (m, s3) =>
      match s3 with
      | '-' :: s4 =>
        (dayAlts s4).findSome? (fun (d, s5) =>
          if s5.isEmpty then mkDatetime y m d else none)
      | _ => none)
  | _ => none

/-- The abbreviated month names of `%b` (C locale), lower-cased. -/
def monthAbbrs : List (String × Nat) :=
  [("jan", 1), ("feb", 2), ("mar", 3), ("apr", 4), ("may", 5), ("jun", 6),
   ("jul", 7), ("aug", 8), ("sep", 9), ("oct", 10), ("nov", 11), ("dec", 12)]

/-- The full month names of `%B` (C locale), lower-cased and sorted by
length descending as CPython's `_strptime.__seqToRE` does. -/
def monthNames : List (String × Nat) :=
  [("september", 9), ("december", 12), ("november", 11), ("february", 2),
   ("january", 1), ("october", 10), ("august", 8), ("april", 4),
   ("march", 3), ("july", 7), ("june", 6), ("may", 5)]

/-- Case-insensitive literal match of a (lower-cased) month name against
the head of the input. -/
def matchNameCI (name : List Char) (s : List Char) : Option (List Char) :=
  if (s.take name.length).map Char.toLower = name then some (s.drop name.length)
  else none

/-- `%b` / `%B`: the regex alternation over month names, in table order. -/
def monthByName (tbl : List (String × Nat)) (s : List Char) : List (Nat × List Char) :=
  tbl.filterMap (fun nm => (matchNameCI nm.1.data s).map (fun rest => (nm.2, rest)))

/-- `datetime.strptime(s, "%b %d, %Y")` (with `tbl = monthAbbrs`) or
`"%B %d, %Y"` (with `tbl = monthNames`), returning `none` for
`ValueError`. -/
def strptimeBdY (tbl : List (String × Nat)) (s : List Char) : Option PyDate :=
  (monthByName tbl s).findSome? (fun (m, s1) => do
    let s2 ← skipWs1 s1
    (dayAlts s2).findSome? (fun (d, s3) =>
      match s3 with
      | ',' :: s4 => do
        let s5 ← skipWs1 s4
        let (y, s6) ← parse4Digits s5
        if s6.isEmpty then mkDatetime y m d else none
      | _ => none))

/-- `_parse_date` (scraper.py lines 42–49): best-effort parser over the
ordered format list `("%Y-%m-%d", "%b %d, %Y", "%B %d, %Y")`; the first
format that parses wins, and total failure is `None`, never an error. -/
def parse_date (s : String) : Option PyDate :=
  match strptimeYmd s.data with
  | some d => some d
  | none =>
    match strptimeBdY monthAbbrs s.data with
    | some d => some d
    | none => strptimeBdY monthNames s.data

/-- One raw extracted listing: the 4-tuple
`(title, company, location, date_posted)` built at scraper.py lines
134–139. -/
structure Row where
  title : String
  company : String
  loc : String
  date_str : String
deriving DecidableEq, Repr

/-- Python `str.lower()` on the ASCII text this program manipulates:
per-character lowercase. -/
def lowerStr (s : String) : String := ⟨s.data.map Char.toLower⟩

/-- Python substring test `needle in hay` on strings. -/
def substrOf (needle hay : String) : Bool := decide (needle.data <:+: hay.data)

/-- The search blob of `_passes_filters` (line 59):
`f"{title} {company} {loc}".lower()`. -/
def blobOf (row : Row) : String :=
  lowerStr (row.title ++ " " ++ row.company ++ " " ++ row.loc)

/-- Line 65: `if location and location.lower() not in loc.lower()`.
`location` is falsy when `None` or the empty string. -/
def locFails (location : Option String) (loc : String) : Bool :=
  match location with
  | none => false
  | some l => if l = "" then false else ! substrOf (lowerStr l) (lowerStr loc)

/-- Lines 67–70: `if since is not None: d = _parse_date(date_str);
if not d or d < since: return False`.  A `datetime` is always truthy, so
`not d` means `d is None`. -/
def sinceFails (since : Option PyDate) (date_str : String) : Bool :=
  match since with
  | none => false
  | some sd =>
    match parse_date date_str with
    | none => true
    | some d => decide (PyDate.Lt d sd)

/-- `_passes_filters` (scraper.py lines 51–71).  The Python parameters
`include` / `exclude` are named `incl` / `excl` here (`include` is a Lean
keyword); a non-empty list is truthy, an empty one falsy. -/
def passes_filters (row : Row) (incl excl : List String)
    (location : Option String) (since : Option PyDate) : Bool :=
  if incl ≠ [] ∧ ¬ (incl.all fun term => substrOf (lowerStr term) (blobOf row)) then
    false
  else if excl ≠ [] ∧ (excl.any fun term => substrOf (lowerStr term) (blobOf row)) then
    false
  else if locFails location row.loc then false
  else if sinceFails since row.date_str then false
  else true

/-- Sample rows for concrete checks (the pair of Scenario 1 of the spec,
plus one unparseable-date row). -/
def rowA : Row := ⟨"Engineer", "Acme", "Remote, US", "2024-01-05"⟩

def rowB : Row := ⟨"Engineer", "Acme", "Remote, US", "2023-12-01"⟩

def rowC : Row := ⟨"Analyst", "Beta", "Berlin, DE", "soon"⟩

/-- Dedup key (line 158): `(r[0].lower(), r[1].lower(), r[2].lower())` —
the posting date is deliberately not part of the key. -/
def dkey (r : Row) : String × String × String :=
  (lowerStr r.title, lowerStr r.company, lowerStr r.loc)

/-- The dedupe loop of lines 155–161: scan in order, keep a row only the
first time its key is seen.  The Python `seen` set is modelled by the
list of keys added so far (only membership is used). -/
def dedupeGo (seen : List (String × String × String)) : List Row → List Row
  | [] => []
  | r :: rs =>
    if dkey r ∈ seen then dedupeGo seen rs
    else r :: dedupeGo (dkey r :: seen) rs

/-- Lines 154–162: the whole dedupe pass starting from an empty `seen`. -/
def dedupeRows (rows : List Row) : List Row := dedupeGo [] rows

/-- Lines 154–162 with the flag: `if dedupe: ... rows = new_rows`. -/
def dedupeStage (dedupe : Bool) (rows : List Row) : List Row :=
  if dedupe then dedupeRows rows else rows

/-- Sort key for `sort_by="date"` (line 171):
`_parse_date(r[3]) or datetime.min` (a `datetime` is always truthy). -/
def dateKey (r : Row) : PyDate := (parse_date r.date_str).getD datetime_min

/-- `rows.sort(key=..., reverse=True)` places `a` no later than `b`
exactly when it is not the case that `key(a) < key(b)` (descending, ties
in original order). -/
def dateDescRel (a b : Row) : Prop := ¬ PyDate.Lt (dateKey a) (dateKey b)

instance : DecidableRel dateDescRel := fun a b => by
  unfold dateDescRel; infer_instance

/-- Tuple indexing `r[idx]` on the 4-tuple. -/
def fieldGet (r : Row) : Nat → String
  | 0 => r.title
  | 1 => r.company
  | 2 => r.loc
  | _ => r.date_str

/-- Python string comparison `a <= b`: lexicographic by code point on
the character sequences. -/
def strLeb : List Char → List Char → Bool
  | [], _ => true
  | _ :: _, [] => false
  | c :: cs, d :: ds =>
    if c < d then true else if d < c then false else strLeb cs ds

/-- Sort key for the text columns (line 173): `(r[idx] or "").lower()`;
`s or ""` is the identity on strings, so the key is the lower-cased
field.  Ascending stable order places `a` no later than `b` when
`key(a) <= key(b)` in Python string order. -/
def fieldAscRel (idx : Nat) (a b : Row) : Prop :=
  strLeb (lowerStr (fieldGet a idx)).data (lowerStr (fieldGet b idx)).data = true

instance (idx : Nat) : DecidableRel (fieldAscRel idx) := fun a b => by
  unfold fieldAscRel; infer_instance

/-- `idx_map` of line 166. -/
def idx_map : List (String × Nat) :=
  [("title", 0), ("company", 1), ("location", 2), ("date", 3)]

/-- Lines 164–173: the sort stage.  `if sort_by:` skips the stage for
`None` and for the falsy empty string; an unknown column raises
`ValueError`.  Python's `list.sort` is a stable sort, so its output is
the unique stably sorted rearrangement; it is modelled by insertion
sort with the corresponding placement relations. -/
def sortStage (sort_by : Option String) (rows : List Row) :
    Except String (List Row) :=
  match sort_by with
  | none => .ok rows
  | some sb =>
    if sb = "" then .ok rows
    else
      match idx_map.lookup sb with
      | none => .error "Invalid --sort. Choose: date, title, company, location"
      | some idx =>
        if sb = "date" then .ok (rows.insertionSort dateDescRel)
        else .ok (rows.insertionSort (fieldAscRel idx))

/-- Lines 175–177: `if isinstance(limit, int) and limit > 0:
rows = rows[:limit]`. -/
def limitStage (limit : Option Int) (rows : List Row) : List Row :=
  match limit with
  | some k => if 0 < k then rows.take k.toNat else rows
  | none => rows

/-- Lines 142–147: `since_dt = None; if since_str: try strptime(...,
"%Y-%m-%d") except ValueError: raise ValueError(...)`.  The empty string
is falsy and leaves `since_dt = None`. -/
def parseSinceArg (since_str : Option String) : Except String (Option PyDate) :=
  match since_str with
  | none => .ok none
  | some s =>
    if s = "" then .ok none
    else
      match strptimeYmd s.data with
      | some d => .ok (some d)
      | none => .error "Invalid --since format. Use YYYY-MM-DD."

/-- The keyword arguments of `scrape_fake_jobs_to_csv` (lines 105–113),
with their Python defaults.  The output path only names the CSV file and
does not influence row processing, so it is not carried here. -/
structure Cfg where
  incl : Option (List String) := none
  excl : Option (List String) := none
  location : Option String := none
  since_str : Option String := none
  dedupe : Bool := false
  sort_by : Option String := none
  limit : Option Int := none

/-- The externally observable steps of one `scrape_fake_jobs_to_csv`
invocation, in execution order. -/
inductive Ev where
  | fetch
  | extract
  | filter
  | dedupe
  | sort
  | limit
  | write
deriving DecidableEq, Repr

/-- `scrape_fake_jobs_to_csv` (lines 105–187) after the two excluded
collaborators: `page` is the ordered list of raw 4-tuples the extraction
produced from the fetched document.  Returns the trace of steps
performed and either the error raised or the rows written to the CSV.
The network request (line 128) and the card extraction (lines 132–139)
run unconditionally before any validation. -/
def scrapeRun (cfg : Cfg) (page : List Row) :
    List Ev × Except String (List Row) :=
  let tr0 := [Ev.fetch, Ev.extract]
  match parseSinceArg cfg.since_str with
  | .error e => (tr0, .error e)
  | .ok since_dt =>
    let rows1 := page.filter fun r =>
      passes_filters r (cfg.incl.getD []) (cfg.excl.getD []) cfg.location since_dt
    let tr1 := tr0 ++ [Ev.filter]
    let rows2 := dedupeStage cfg.dedupe rows1
    let tr2 := tr1 ++ [Ev.dedupe]
    match sortStage cfg.sort_by rows2 with
    | .error e => (tr2, .error e)
    | .ok rows3 =>
      let rows4 := limitStage cfg.limit rows3
      (tr2 ++ [Ev.sort, Ev.limit, Ev.write], .ok rows4)

/-- The rows `scrape_fake_jobs_to_csv` writes (one CSV line each, after
the header), when it does not raise. -/
def pipelineRows (cfg : Cfg) (page : List Row) : Except String (List Row) :=
  (scrapeRun cfg page).2

/-- The return value of `scrape_fake_jobs_to_csv`: `len(rows)`
(line 187). -/
def scrapeCount (cfg : Cfg) (page : List Row) : Except String Nat :=
  (pipelineRows cfg page).map List.length

/-- The parsed options of the `fakejobs` subcommand (lines 206–214),
as `main` receives them. -/
structure Args where
  out : String := "fake_jobs.csv"
  incl : List String := []
  excl : List String := []
  location : Option String := none
  since_str : Option String := none
  dedupe : Bool := false
  sort_by : Option String := none
  limit : Option Int := none

/-- The configuration `main` actually passes at line 231:
`scrape_fake_jobs_to_csv(Path(args.out))` — only the output path is
forwarded, every keyword argument is left at its default. -/
def fakejobsCall (_args : Args) : Cfg := {}

/-- The `fakejobs` branch of `main` (lines 230–231), observed as the
count it prints. -/
def fakejobsCmd (args : Args) (page : List Row) : Except String Nat :=
  scrapeCount (fakejobsCall args) page

/-- Spec-side characterization of §4.2 of the spec: the output contains
exactly the first occurrence, in input scan order, of each lower-cased
`(title, company, location)` triple. -/
def firstSeenWins : List Row → List Row
  | [] => []
  | r :: rs =>
    r :: firstSeenWins (rs.filter fun s => decide (dkey s ≠ dkey r))
termination_by l => l.length
decreasing_by
  simp only [List.length_cons]
  exact Nat.lt_succ_of_le (List.length_filter_le _ _)

/-! ### Sanity checks of the embedding -/

example :
    passes_filters ⟨"Senior Engineer", "Acme", "Remote", ""⟩ ["engineer"] [] none none
      = true := by decide
example :
    passes_filters ⟨"Analyst", "Acme", "Remote", ""⟩ ["engineer"] [] none none
      = false := by decide
example :
    passes_filters ⟨"Senior Engineer", "Acme", "Remote", ""⟩ [] ["acme"] none none
      = false := by decide
example :
    passes_filters ⟨"Senior Engineer", "Acme", "Remote, US", ""⟩ [] [] (some "us") none
      = true := by decide
example :
    passes_filters ⟨"Senior Engineer", "Acme", "Remote, US", ""⟩ [] [] (some "berlin") none
      = false := by decide
example :
    passes_filters ⟨"a", "b", "c", "soon"⟩ [] [] none (some ⟨2024, 1, 1⟩) = false := by
  decide
example :
    passes_filters ⟨"a", "b", "c", "Jan 15, 2024"⟩ [] [] none (some ⟨2024, 1, 1⟩)
      = true := by decide
example :
    passes_filters ⟨"a", "b", "c", "2023-12-31"⟩ [] [] none (some ⟨2024, 1, 1⟩)
      = false := by decide

example :
    dedupeStage true
        [⟨"Engineer", "Acme", "Remote, US", "2024-01-05"⟩,
         ⟨"Engineer", "Acme", "Remote, US", "2023-12-01"⟩]
      = [⟨"Engineer", "Acme", "Remote, US", "2024-01-05"⟩] := by decide

example : parse_date "2024-01-05" = some ⟨2024, 1, 5⟩ := by decide

example : parse_date "Jan 15, 2024" = some ⟨2024, 1, 15⟩ := by decide
example : parse_date "January 15, 2024" = some ⟨2024, 1, 15⟩ := by decide
example : parse_date "soon" = none := by decide
example : parse_date "2023-02-29" = none := by decide
example : parse_date "2024-02-29" = some ⟨2024, 2, 29⟩ := by decide
example : parse_date "2024-1-5" = some ⟨2024, 1, 5⟩ := by decide
example : parse_date "0000-01-01" = none := by decide
example : parse_date "2024-01-055" = none := by decide
example : parse_date "may 5, 2024" = some ⟨2024, 5, 5⟩ := by decide
example : parse_date "May 5, 2024" = some ⟨2024, 5, 5⟩ := by decide

/-! ### Helper lemmas -/

instance : IsTotal Row dateDescRel :=
  ⟨by intro a b; unfold dateDescRel PyDate.Lt; omega⟩

instance : IsTrans Row dateDescRel :=
  ⟨by intro a b c; unfold dateDescRel PyDate.Lt; omega⟩

theorem strLeb_refl (l : List Char) : strLeb l l = true := by
  induction l with
  | nil => rfl
  | cons c cs ih =>
    simp only [strLeb, if_neg (lt_irrefl c)]
    exact ih

theorem strLeb_total (a : List Char) : ∀ b, strLeb a b = true ∨ strLeb b a = true := by
  induction a with
  | nil => intro b; left; rfl
  | cons c cs ih =>
    intro b
    cases b with
    | nil => right; rfl
    | cons d ds =>
      simp only [strLeb]
      by_cases h1 : c < d
      · left; rw [if_pos h1]
      · by_cases h2 : d < c
        · right; rw [if_pos h2]
        · rw [if_neg h1, if_neg h2, if_neg h2, if_neg h1]
          exact ih ds

theorem strLeb_trans {a : List Char} :
    ∀ {b c}, strLeb a b = true → strLeb b c = true → strLeb a c = true := by
  induction a with
  | nil => intro b c _ _; rfl
  | cons x xs ih =>
    intro b c hab hbc
    cases b with
    | nil => simp [strLeb] at hab
    | cons y ys =>
      cases c with
      | nil => simp [strLeb] at hbc
      | cons z zs =>
        simp only [strLeb] at hab hbc ⊢
        by_cases h1 : x < y
        · by_cases h2 : y < z
          · rw [if_pos (lt_trans h1 h2)]
          · by_cases h3 : z < y
            · rw [if_neg h2, if_pos h3] at hbc; cases hbc
            · have hyz : y = z := le_antisymm (not_lt.mp h3) (not_lt.mp h2)
              subst hyz
              rw [if_pos h1]
        · by_cases h1' : y < x
          · rw [if_neg h1, if_pos h1'] at hab; cases hab
          · have hxy : x = y := le_antisymm (not_lt.mp h1') (not_lt.mp h1)
            subst hxy
            rw [if_neg h1, if_neg h1'] at hab
            by_cases h2 : x < z
            · rw [if_pos h2]
            · by_cases h3 : z < x
              · rw [if_neg h2, if_pos h3] at hbc; cases hbc
              · rw [if_neg h2, if_neg h3] at hbc ⊢
                exact ih hab hbc

instance (idx : Nat) : IsTotal Row (fieldAscRel idx) :=
  ⟨by intro a b; unfold fieldAscRel; exact strLeb_total _ _⟩

instance (idx : Nat) : IsTrans Row (fieldAscRel idx) :=
  ⟨by intro a b c h1 h2; unfold fieldAscRel at *; exact strLeb_trans h1 h2⟩

theorem filter_orderedInsert {α : Type} (r : α → α → Prop) [DecidableRel r]
    (p : α → Bool) (a : α) (hp : ∀ b, ¬ r a b → p a = true → p b = false) :
    ∀ L : List α, (L.orderedInsert r a).filter p = (a :: L).filter p := by
  intro L
  induction L with
  | nil => rfl
  | cons b L ih =>
    by_cases hr : r a b
    · simp [List.orderedInsert, hr]
    · by_cases hpa : p a = true
      · have hb := hp b hr hpa
        simp only [List.orderedInsert, if_neg hr, List.filter_cons, hb, hpa, ih,
          Bool.false_eq_true, if_false, if_true]
      · have hpa' : p a = false := by
          cases h : p a
          · rfl
          · exact absurd h hpa
        simp only [List.orderedInsert, if_neg hr, List.filter_cons, hpa', ih,
          Bool.false_eq_true, if_false]

theorem filter_insertionSort {α : Type} (r : α → α → Prop) [DecidableRel r]
    (p : α → Bool) (hp : ∀ a b, ¬ r a b → p a = true → p b = false) :
    ∀ l : List α, (l.insertionSort r).filter p = l.filter p := by
  intro l
  induction l with
  | nil => rfl
  | cons a l ih =>
    rw [List.insertionSort, filter_orderedInsert r p a (hp a),
      List.filter_cons, List.filter_cons, ih]

theorem dedupeGo_eq_firstSeenWins (rows : List Row) :
    ∀ seen, dedupeGo seen rows
      = firstSeenWins (rows.filter fun r => decide (dkey r ∉ seen)) := by
  induction rows with
  | nil => intro seen; simp [dedupeGo, firstSeenWins]
  | cons r rs ih =>
    intro seen
    rw [dedupeGo]
    by_cases h : dkey r ∈ seen
    · rw [if_pos h]
      have hfc : (r :: rs).filter (fun r' => decide (dkey r' ∉ seen))
          = rs.filter (fun r' => decide (dkey r' ∉ seen)) := by
        rw [List.filter_cons]
        simp [h]
      rw [hfc]
      exact ih seen
    · rw [if_neg h]
      have hfc : (r :: rs).filter (fun r' => decide (dkey r' ∉ seen))
          = r :: rs.filter (fun r' => decide (dkey r' ∉ seen)) := by
        rw [List.filter_cons]
        simp [h]
      rw [hfc, ih (dkey r :: seen)]
      simp only [firstSeenWins]
      have hff : (rs.filter (fun r' => decide (dkey r' ∉ seen))).filter
            (fun x => decide (dkey x ≠ dkey r))
          = rs.filter (fun r' => decide (dkey r' ∉ dkey r :: seen)) := by
        rw [List.filter_filter]
        apply List.filter_congr
        intro x _
        by_cases hx : dkey x = dkey r
        · simp [hx]
        · by_cases hxs : dkey x ∈ seen <;> simp [hx, hxs]
      rw [hff]

theorem dedupeGo_sublist (rows : List Row) :
    ∀ seen, (dedupeGo seen rows).Sublist rows := by
  induction rows with
  | nil => intro seen; exact List.Sublist.refl _
  | cons r rs ih =>
    intro seen
    by_cases h : dkey r ∈ seen
    · simp only [dedupeGo, if_pos h]
      exact (ih seen).cons r
    · simp only [dedupeGo, if_neg h]
      exact (ih (dkey r :: seen)).cons₂ r

theorem mkDatetime_bounds {y m d : Nat} {dt : PyDate}
    (h : mkDatetime y m d = some dt) :
    1 ≤ dt.year ∧ dt.year ≤ 9999 ∧ 1 ≤ dt.month ∧ dt.month ≤ 12 ∧
      1 ≤ dt.day ∧ dt.day ≤ 31 := by
  unfold mkDatetime at h
  split at h
  · rename_i hc
    cases h
    have hdm : daysInMonth y m ≤ 31 := by
      unfold daysInMonth
      split_ifs <;> omega
    dsimp only
    omega
  · exact absurd h (by simp)

theorem exists_of_findSome {α β : Type} {f : α → Option β} {l : List α} {b : β}
    (h : l.findSome? f = some b) : ∃ a, f a = some b := by
  obtain ⟨l₁, a, l₂, _, hfa, _⟩ := List.findSome?_eq_some_iff.mp h
  exact ⟨a, hfa⟩

theorem strptimeYmd_bounds {s : List Char} {dt : PyDate}
    (h : strptimeYmd s = some dt) :
    1 ≤ dt.year ∧ dt.year ≤ 9999 ∧ 1 ≤ dt.month ∧ dt.month ≤ 12 ∧
      1 ≤ dt.day ∧ dt.day ≤ 31 := by
  unfold strptimeYmd at h
  cases hy : parse4Digits s with
  | none => rw [hy] at h; exact absurd h (by simp [Option.bind])
  | some yr =>
    rw [hy] at h
    obtain ⟨y, s1⟩ := yr
    simp only [Option.bind_eq_bind, Option.some_bind] at h
    split at h
    · obtain ⟨mo, h2⟩ := exists_of_findSome h
      split at h2
      · obtain ⟨dy, h3⟩ := exists_of_findSome h2
        split at h3
        · exact mkDatetime_bounds h3
        · exact absurd h3 (by simp)
      · exact absurd h2 (by simp)
    · exact absurd h (by simp)

theorem strptimeBdY_bounds {tbl : List (String × Nat)} {s : List Char}
    {dt : PyDate} (h : strptimeBdY tbl s = some dt) :
    1 ≤ dt.year ∧ dt.year ≤ 9999 ∧ 1 ≤ dt.month ∧ dt.month ≤ 12 ∧
      1 ≤ dt.day ∧ dt.day ≤ 31 := by
  unfold strptimeBdY at h
  obtain ⟨mo, h2⟩ := exists_of_findSome h
  obtain ⟨m, s1⟩ := mo
  dsimp only at h2
  cases hw : skipWs1 s1 with
  | none => rw [hw] at h2; exact absurd h2 (by simp [Option.bind])
  | some s2 =>
    rw [hw] at h2
    simp only [Option.bind_eq_bind, Option.some_bind] at h2
    obtain ⟨dy, h3⟩ := exists_of_findSome h2
    obtain ⟨d, s3⟩ := dy
    dsimp only at h3
    split at h3
    · rename_i s4
      cases hw2 : skipWs1 s4 with
      | none => rw [hw2] at h3; exact absurd h3 (by simp [Option.bind])
      | some s5 =>
        rw [hw2] at h3
        simp only [Option.bind_eq_bind, Option.some_bind] at h3
        cases hy : parse4Digits s5 with
        | none => rw [hy] at h3; exact absurd h3 (by simp [Option.bind])
        | some yr =>
          rw [hy] at h3
          obtain ⟨y, s6⟩ := yr
          simp only [Option.bind_eq_bind, Option.some_bind] at h3
          split at h3
          · exact mkDatetime_bounds h3
          · exact absurd h3 (by simp)
    · exact absurd h3 (by simp)

theorem parse_date_bounds {s : String} {dt : PyDate}
    (h : parse_date s = some dt) :
    1 ≤ dt.year ∧ dt.year ≤ 9999 ∧ 1 ≤ dt.month ∧ dt.month ≤ 12 ∧
      1 ≤ dt.day ∧ dt.day ≤ 31 := by
  unfold parse_date at h
  split at h
  · rename_i h1; cases h; exact strptimeYmd_bounds h1
  · split at h
    · rename_i h2; cases h; exact strptimeBdY_bounds h2
    · exact strptimeBdY_bounds h

theorem dateKey_not_lt_min (r : Row) : ¬ PyDate.Lt (dateKey r) datetime_min := by
  unfold dateKey
  cases h : parse_date r.date_str with
  | none => simp only [Option.getD_none]; decide
  | some d =>
    simp only [Option.getD_some]
    have hb := parse_date_bounds h
    unfold PyDate.Lt datetime_min
    dsimp only
    omega

theorem sortStage_perm {sort_by : Option String} {rows l : List Row}
    (h : sortStage sort_by rows = .ok l) : l.Perm rows := by
  unfold sortStage at h
  split at h
  · cases h; exact List.Perm.refl _
  · split at h
    · cases h; exact List.Perm.refl _
    · split at h
      · exact absurd h (by simp)
      · split at h <;> (cases h; exact List.perm_insertionSort _ _)
theorem dedupeStage_sublist (flag : Bool) (rows : List Row) :
    (dedupeStage flag rows).Sublist rows := by
  cases flag
  · exact List.Sublist.refl rows
  · exact dedupeGo_sublist rows []

theorem limitStage_sublist (lim : Option Int) (rows : List Row) :
    (limitStage lim rows).Sublist rows := by
  cases lim with
  | none => exact List.Sublist.refl rows
  | some k =>
    show (if 0 < k then rows.take k.toNat else rows).Sublist rows
    by_cases hk : 0 < k
    · rw [if_pos hk]; exact List.take_sublist _ _
    · rw [if_neg hk]

theorem sortStage_invalid {sb : String} (hne : sb ≠ "")
    (hlook : idx_map.lookup sb = none) (rows : List Row) :
    sortStage (some sb) rows
      = .error "Invalid --sort. Choose: date, title, company, location" := by
  unfold sortStage
  dsimp only
  rw [if_neg hne, hlook]

theorem pipelineRows_eq (cfg : Cfg) (page : List Row) :
    pipelineRows cfg page = (parseSinceArg cfg.since_str).bind fun since_dt =>
      (sortStage cfg.sort_by (dedupeStage cfg.dedupe (page.filter fun r =>
          passes_filters r (cfg.incl.getD []) (cfg.excl.getD [])
            cfg.location since_dt))).map
        (limitStage cfg.limit) := by
  cases hps : parseSinceArg cfg.since_str with
  | error e => simp [pipelineRows, scrapeRun, hps, Except.bind]
  | ok since_dt =>
    cases hs : sortStage cfg.sort_by (dedupeStage cfg.dedupe (page.filter fun r =>
        passes_filters r (cfg.incl.getD []) (cfg.excl.getD [])
          cfg.location since_dt)) with
    | error e => simp [pipelineRows, scrapeRun, hps, hs, Except.bind, Except.map]
    | ok rows3 => simp [pipelineRows, scrapeRun, hps, hs, Except.bind, Except.map]

/-! ### Claim theorems -/

/-- C8: filtering with empty `include_terms`, empty `exclude_terms`,
absent `location_substring` and absent `since` keeps every row: each
empty or absent criterion never filters anything out. -/
theorem C8_empty_criteria_identity :
    (∀ row : Row, passes_filters row [] [] none none = true)
    ∧ ∀ rows : List Row,
        rows.filter (fun r => passes_filters r [] [] none none) = rows := by
  constructor
  · intro row; rfl
  · intro rows
    exact List.filter_eq_self.mpr fun a _ => rfl

/-- C7: a positive limit `k` keeps exactly the first `k` rows, so the
output length is `min k (len input)`; a zero, negative, or absent limit
leaves the rows unchanged. -/
theorem C7_limit_monotonicity (rows : List Row) (k : Int) :
    (0 < k → limitStage (some k) rows = rows.take k.toNat
      ∧ (limitStage (some k) rows).length = min k.toNat rows.length)
    ∧ (k ≤ 0 → limitStage (some k) rows = rows)
    ∧ limitStage none rows = rows := by
  refine ⟨?_, ?_, rfl⟩
  · intro hk
    rw [limitStage, if_pos hk]
    exact ⟨rfl, List.length_take _ _⟩
  · intro hk
    rw [limitStage, if_neg (by omega)]

/-- C7 witness: the limiter at concrete inputs (positive and
non-positive limits). -/
theorem C7_limit_monotonicity_witness :
    (limitStage (some 2) [rowA, rowB, rowC] = [rowA, rowB]
      ∧ (limitStage (some 2) [rowA, rowB, rowC]).length
          = min (Int.toNat 2) [rowA, rowB, rowC].length)
    ∧ limitStage (some 0) [rowA, rowB, rowC] = [rowA, rowB, rowC]
    ∧ limitStage (some (-1)) [rowA, rowB, rowC] = [rowA, rowB, rowC] := by
  refine ⟨?_, ?_, ?_⟩
  · exact (C7_limit_monotonicity [rowA, rowB, rowC] 2).1 (by decide)
  · exact ((C7_limit_monotonicity [rowA, rowB, rowC] 0).2).1 (by decide)
  · exact ((C7_limit_monotonicity [rowA, rowB, rowC] (-1)).2).1 (by decide)

/-- C4: with dedupe enabled the output is exactly the first occurrence,
in scan order, of each lower-cased `(title, company, location)` triple
(the date is not part of the key, so the Scenario 1 pair collapses to
the first-encountered row, dated 2024-01-05); with dedupe off the stage
is a pass-through. -/
theorem C4_dedupe_first_seen_wins :
    (∀ rows : List Row, dedupeStage true rows = firstSeenWins rows)
    ∧ (∀ rows : List Row, dedupeStage false rows = rows)
    ∧ dedupeStage true [rowA, rowB] = [rowA] := by
  refine ⟨?_, fun rows => rfl, by decide⟩
  intro rows
  have h0 : rows.filter
      (fun r => decide (dkey r ∉ ([] : List (String × String × String))))
      = rows := by simp
  show dedupeGo [] rows = firstSeenWins rows
  rw [dedupeGo_eq_firstSeenWins rows [], h0]

/-- C10: the `fakejobs` CLI branch calls `scrape_fake_jobs_to_csv` with
only the output path; whatever options were parsed, the pipeline runs
with no filters, no dedupe, no sort and no limit, so it writes the
extracted rows unchanged and reports their count. -/
theorem C10_cli_forwards_only_out (args : Args) (page : List Row) :
    fakejobsCall args = ({} : Cfg)
    ∧ pipelineRows (fakejobsCall args) page = .ok page
    ∧ fakejobsCmd args page = .ok page.length := by
  have hpipe : pipelineRows (fakejobsCall args) page = .ok page := by
    show pipelineRows {} page = .ok page
    have hf : page.filter (fun r => passes_filters r [] [] none none) = page :=
      List.filter_eq_self.mpr fun a _ => rfl
    simp only [pipelineRows, scrapeRun, parseSinceArg, Option.getD_none,
      dedupeStage, sortStage, limitStage, Bool.false_eq_true, if_false]
    rw [hf]
  refine ⟨rfl, hpipe, ?_⟩
  show scrapeCount (fakejobsCall args) page = .ok page.length
  rw [scrapeCount, hpipe]
  rfl

theorem locFails_eq_false_iff (location : Option String) (loc : String) :
    locFails location loc = false ↔
      ∀ l, location = some l → substrOf (lowerStr l) (lowerStr loc) = true := by
  cases location with
  | none => simp [locFails]
  | some l =>
    show (if l = "" then false else !substrOf (lowerStr l) (lowerStr loc)) = false ↔ _
    by_cases hl0 : l = ""
    · subst hl0
      simp only [if_pos rfl, true_iff]
      constructor
      · intro _ l' hl'
        obtain rfl : l' = "" := (Option.some.inj hl').symm
        refine decide_eq_true ⟨[], (lowerStr loc).data, ?_⟩
        simp [show (lowerStr "").data = [] from rfl]
      · intro _
        rfl
    · rw [if_neg hl0]
      constructor
      · intro h l' hl'
        have he : l = l' := Option.some.inj hl'
        subst he
        cases hs : substrOf (lowerStr l) (lowerStr loc) with
        | true => rfl
        | false => rw [hs] at h; simp at h
      · intro h
        rw [h l rfl]
        rfl

theorem passes_filters_since_split (row : Row) (incl excl : List String)
    (location : Option String) (since : Option PyDate) :
    passes_filters row incl excl location since
      = (passes_filters row incl excl location none
          && !sinceFails since row.date_str) := by
  unfold passes_filters
  by_cases h1 : incl ≠ [] ∧ ¬ (incl.all fun term => substrOf (lowerStr term) (blobOf row)) = true
  · simp only [if_pos h1, Bool.false_and]
  · simp only [if_neg h1]
    by_cases h2 : excl ≠ [] ∧ (excl.any fun term => substrOf (lowerStr term) (blobOf row)) = true
    · simp only [if_pos h2, Bool.false_and]
    · simp only [if_neg h2]
      by_cases h3 : locFails location row.loc = true
      · simp only [if_pos h3, Bool.false_and]
      · simp only [if_neg h3]
        have hsn : sinceFails none row.date_str = false := rfl
        cases hs : sinceFails since row.date_str <;>
          simp [hs, hsn]

theorem not_sinceFails_some_iff (ds : String) (sd : PyDate) :
    (!sinceFails (some sd) ds) = true ↔
      ∃ d, parse_date ds = some d ∧ ¬ PyDate.Lt d sd := by
  unfold sinceFails
  cases hp : parse_date ds with
  | none => simp
  | some d => by_cases hlt : PyDate.Lt d sd <;> simp [hlt]

/-- C2: with no date cutoff, the filter keeps a row exactly when every
include term (lower-cased) occurs in the lower-cased
`title + " " + company + " " + location` blob (vacuously when
`include_terms` is empty), no exclude term occurs in that blob, and the
lower-cased location substring (when set) occurs in the lower-cased
location field; and the filter stage emits a sublist of its input
(order-preserving, rows unchanged). -/
theorem C2_filter_characterization (row : Row) (incl excl : List String)
    (location : Option String) :
    (passes_filters row incl excl location none = true ↔
      ((incl ≠ [] → ∀ t ∈ incl, substrOf (lowerStr t) (blobOf row) = true)
        ∧ (∀ t ∈ excl, substrOf (lowerStr t) (blobOf row) = false)
        ∧ (∀ l, location = some l →
            substrOf (lowerStr l) (lowerStr row.loc) = true)))
    ∧ ∀ rows : List Row,
        (rows.filter fun r => passes_filters r incl excl location none).Sublist
          rows := by
  refine ⟨?_, fun rows => List.filter_sublist rows⟩
  unfold passes_filters
  by_cases h1 : incl ≠ [] ∧ ¬ (incl.all fun term => substrOf (lowerStr term) (blobOf row)) = true
  · rw [if_pos h1]
    simp only [Bool.false_eq_true, false_iff]
    rintro ⟨hi, -, -⟩
    exact h1.2 (List.all_eq_true.mpr fun t ht => hi h1.1 t ht)
  · rw [if_neg h1]
    by_cases h2 : excl ≠ [] ∧ (excl.any fun term => substrOf (lowerStr term) (blobOf row)) = true
    · rw [if_pos h2]
      simp only [Bool.false_eq_true, false_iff]
      rintro ⟨-, he, -⟩
      obtain ⟨t, ht, hsub⟩ := List.any_eq_true.mp h2.2
      rw [he t ht] at hsub
      cases hsub
    · rw [if_neg h2]
      by_cases h3 : locFails location row.loc = true
      · rw [if_pos h3]
        simp only [Bool.false_eq_true, false_iff]
        rintro ⟨-, -, hl⟩
        rw [(locFails_eq_false_iff location row.loc).mpr hl] at h3
        cases h3
      · rw [if_neg h3]
        have hsn : sinceFails none row.date_str = false := rfl
        rw [hsn]
        simp only [Bool.false_eq_true, if_false, true_iff]
        refine ⟨?_, ?_, ?_⟩
        · intro hne t ht
          have hall : incl.all (fun t => substrOf (lowerStr t) (blobOf row)) = true := by
            by_contra hnall
            exact h1 ⟨hne, hnall⟩
          exact List.all_eq_true.mp hall t ht
        · intro t ht
          cases hs : substrOf (lowerStr t) (blobOf row) with
          | false => rfl
          | true =>
            exfalso
            refine h2 ⟨?_, List.any_eq_true.mpr ⟨t, ht, hs⟩⟩
            intro hnil
            exact absurd (hnil ▸ ht) (List.not_mem_nil t)
        · exact (locFails_eq_false_iff location row.loc).mp
            (Bool.not_eq_true _ ▸ h3)

/-- C2 witness: a concrete row passing concrete include/exclude/location
criteria (Scenario 2's kept case, extended). -/
theorem C2_filter_characterization_witness :
    passes_filters rowA ["engineer"] ["intern"] (some "us") none = true := by
  apply (C2_filter_characterization rowA ["engineer"] ["intern"] (some "us")).1.mpr
  refine ⟨fun _ t ht => ?_, fun t ht => ?_, fun l hl => ?_⟩
  · fin_cases ht; decide
  · fin_cases ht; decide
  · obtain rfl : l = "us" := (Option.some.inj hl).symm
    decide

/-- C3: with a `since` cutoff the filter keeps a row exactly when it
passes the other criteria, its date text parses under the ordered format
list, and the parsed date is not strictly before `since`; the first
format that parses wins, and an unparseable date text is dropped without
raising (Scenario 3: `"soon"` dropped, `"Jan 15, 2024"` kept for
`since = 2024-01-01`). -/
theorem C3_since_cutoff (row : Row) (incl excl : List String)
    (location : Option String) (sd : PyDate) :
    (passes_filters row incl excl location (some sd) = true ↔
      (passes_filters row incl excl location none = true ∧
        ∃ d, parse_date row.date_str = some d ∧ ¬ PyDate.Lt d sd))
    ∧ (∀ (s : String) (d : PyDate), strptimeYmd s.data = some d →
        parse_date s = some d)
    ∧ (∀ (s : String) (d : PyDate), strptimeYmd s.data = none →
        strptimeBdY monthAbbrs s.data = some d → parse_date s = some d)
    ∧ (∀ s : String, strptimeYmd s.data = none →
        strptimeBdY monthAbbrs s.data = none →
        parse_date s = strptimeBdY monthNames s.data)
    ∧ parse_date "soon" = none
    ∧ passes_filters rowC [] [] none (some ⟨2024, 1, 1⟩) = false
    ∧ passes_filters ⟨"a", "b", "c", "Jan 15, 2024"⟩ [] [] none
        (some ⟨2024, 1, 1⟩) = true := by
  refine ⟨?_, ?_, ?_, ?_, by decide, by decide, by decide⟩
  · rw [passes_filters_since_split, Bool.and_eq_true]
    exact and_congr_right fun _ => not_sinceFails_some_iff row.date_str sd
  · intro s d h
    unfold parse_date
    rw [h]
  · intro s d h1 h2
    unfold parse_date
    rw [h1, h2]
  · intro s h1 h2
    unfold parse_date
    rw [h1, h2]

/-- C3 witness: the characterization and the format-order conjuncts at
concrete inputs. -/
theorem C3_since_cutoff_witness :
    passes_filters ⟨"a", "b", "c", "Jan 15, 2024"⟩ [] [] none
        (some ⟨2024, 1, 1⟩) = true
    ∧ parse_date "2024-01-05" = some ⟨2024, 1, 5⟩
    ∧ parse_date "Jan 15, 2024" = some ⟨2024, 1, 15⟩
    ∧ parse_date "January 15, 2024" = some ⟨2024, 1, 15⟩ := by
  refine ⟨?_, ?_, ?_, ?_⟩
  · exact ((C3_since_cutoff ⟨"a", "b", "c", "Jan 15, 2024"⟩ [] [] none
      ⟨2024, 1, 1⟩).1).mpr ⟨by decide, ⟨2024, 1, 15⟩, by decide, by decide⟩
  · exact (C3_since_cutoff rowA [] [] none ⟨2024, 1, 1⟩).2.1
      "2024-01-05" ⟨2024, 1, 5⟩ (by decide)
  · exact (C3_since_cutoff rowA [] [] none ⟨2024, 1, 1⟩).2.2.1
      "Jan 15, 2024" ⟨2024, 1, 15⟩ (by decide) (by decide)
  · have h := (C3_since_cutoff rowA [] [] none ⟨2024, 1, 1⟩).2.2.2.1
      "January 15, 2024" (by decide) (by decide)
    rw [h]
    decide

/-- C5: the sort stage is a pass-through when `sort_by` is absent; for
`date` it orders rows descending by the best-effort parsed date, a row
whose date text fails to parse taking `datetime.min` — the minimum
possible key — so no parsed date can sort below it; for `title`,
`company` and `location` it orders rows ascending by the lower-cased
field value. -/
theorem C5_sort_semantics (rows : List Row) :
    sortStage none rows = .ok rows
    ∧ sortStage (some "date") rows = .ok (rows.insertionSort dateDescRel)
    ∧ (rows.insertionSort dateDescRel).Perm rows
    ∧ List.Sorted dateDescRel (rows.insertionSort dateDescRel)
    ∧ (∀ r : Row, parse_date r.date_str = none → dateKey r = datetime_min)
    ∧ (∀ r : Row, ¬ PyDate.Lt (dateKey r) datetime_min)
    ∧ sortStage (some "title") rows = .ok (rows.insertionSort (fieldAscRel 0))
    ∧ sortStage (some "company") rows = .ok (rows.insertionSort (fieldAscRel 1))
    ∧ sortStage (some "location") rows = .ok (rows.insertionSort (fieldAscRel 2))
    ∧ ∀ idx : Nat,
        (rows.insertionSort (fieldAscRel idx)).Perm rows
        ∧ List.Sorted (fieldAscRel idx) (rows.insertionSort (fieldAscRel idx)) := by
  refine ⟨rfl, rfl, List.perm_insertionSort _ _, List.sorted_insertionSort _ _,
    ?_, dateKey_not_lt_min, rfl, rfl, rfl, ?_⟩
  · intro r h
    unfold dateKey
    rw [h]
    rfl
  · intro idx
    exact ⟨List.perm_insertionSort _ _, List.sorted_insertionSort _ _⟩

/-- C5 witness: an unparseable date takes the minimum key, and the sort
equations evaluated on concrete rows (descending date and ascending
title). -/
theorem C5_sort_semantics_witness :
    dateKey rowC = datetime_min
    ∧ sortStage (some "date") [rowB, rowA] = .ok [rowA, rowB]
    ∧ sortStage (some "title") [rowA, rowC] = .ok [rowC, rowA] := by
  refine ⟨?_, ?_, ?_⟩
  · exact (C5_sort_semantics []).2.2.2.2.1 rowC (by decide)
  · rw [(C5_sort_semantics [rowB, rowA]).2.1]
    exact congrArg Except.ok (by decide)
  · rw [(C5_sort_semantics [rowA, rowC]).2.2.2.2.2.2.1]
    exact congrArg Except.ok (by decide)

/-- C6: every sort the stage can perform is stable: for any key value,
the subsequence of rows carrying that exact sort key is unchanged by the
sort, so equal-key rows keep their pre-sort relative order. -/
theorem C6_sort_stability (rows : List Row) :
    (∀ v : PyDate,
      (rows.insertionSort dateDescRel).filter (fun r => decide (dateKey r = v))
        = rows.filter (fun r => decide (dateKey r = v)))
    ∧ ∀ (idx : Nat) (w : String),
      (rows.insertionSort (fieldAscRel idx)).filter
          (fun r => decide (lowerStr (fieldGet r idx) = w))
        = rows.filter (fun r => decide (lowerStr (fieldGet r idx) = w)) := by
  constructor
  · intro v
    apply filter_insertionSort
    intro a b hab hpa
    have ha : dateKey a = v := of_decide_eq_true hpa
    have hlt : PyDate.Lt (dateKey a) (dateKey b) := by
      unfold dateDescRel at hab
      exact not_not.mp hab
    apply decide_eq_false
    intro hb
    rw [ha, hb] at hlt
    unfold PyDate.Lt at hlt
    omega
  · intro idx w
    apply filter_insertionSort
    intro a b hab hpa
    have ha : lowerStr (fieldGet a idx) = w := of_decide_eq_true hpa
    apply decide_eq_false
    intro hb
    apply hab
    unfold fieldAscRel
    rw [ha, hb]
    exact strLeb_refl _

/-- C9: every stage only selects or rearranges rows — the filter,
dedupe and limit stages emit sublists of their input, the sort stage a
permutation — so every row written (and counted) is one of the raw
extracted tuples, field for field. -/
theorem C9_rows_pass_through (cfg : Cfg) (page : List Row) :
    (∀ since_dt : Option PyDate,
      (page.filter fun r => passes_filters r (cfg.incl.getD [])
          (cfg.excl.getD []) cfg.location since_dt).Sublist page)
    ∧ (∀ rows : List Row, (dedupeStage cfg.dedupe rows).Sublist rows)
    ∧ (∀ (sb : Option String) (rows l : List Row),
        sortStage sb rows = .ok l → l.Perm rows)
    ∧ (∀ (lim : Option Int) (rows : List Row),
        (limitStage lim rows).Sublist rows)
    ∧ ∀ out, pipelineRows cfg page = .ok out → ∀ r ∈ out, r ∈ page := by
  refine ⟨fun _ => List.filter_sublist page,
    fun rows => dedupeStage_sublist cfg.dedupe rows,
    fun sb rows l h => sortStage_perm h,
    fun lim rows => limitStage_sublist lim rows, ?_⟩
  intro out hout r hr
  rw [pipelineRows_eq] at hout
  cases hps : parseSinceArg cfg.since_str with
  | error e => rw [hps] at hout; simp [Except.bind] at hout
  | ok since_dt =>
    rw [hps] at hout
    simp only [Except.bind] at hout
    cases hsort : sortStage cfg.sort_by (dedupeStage cfg.dedupe
        (page.filter fun r => passes_filters r (cfg.incl.getD [])
          (cfg.excl.getD []) cfg.location since_dt)) with
    | error e => rw [hsort] at hout; exact absurd hout (by simp [Except.map])
    | ok rows3 =>
      rw [hsort] at hout
      simp only [Except.map, Except.ok.injEq] at hout
      subst hout
      have hr3 : r ∈ rows3 := (limitStage_sublist cfg.limit rows3).subset hr
      have hr2 := (sortStage_perm hsort).subset hr3
      have hr1 := (dedupeStage_sublist cfg.dedupe _).subset hr2
      exact (List.filter_sublist page).subset hr1

/-- C9 witness: the pass-through property applied at a concrete
configuration and page. -/
theorem C9_rows_pass_through_witness :
    rowA ∈ [rowA]
    ∧ ([rowB, rowA].insertionSort dateDescRel).Perm [rowB, rowA] := by
  constructor
  · exact (C9_rows_pass_through {} [rowA]).2.2.2.2 [rowA] rfl rowA (by decide)
  · exact (C9_rows_pass_through {} []).2.2.1 (some "date") [rowB, rowA]
      ([rowB, rowA].insertionSort dateDescRel) rfl

/-- C1 counterexample: the claim is false as stated — with a malformed
`since` string (or an unrecognized sort column) the invocation still
performs the network request, the extraction (and for the sort error the
filter and dedupe stages) before the `ValueError` is raised, so the
pipeline does partially run. -/
theorem C1_counterexample :
    (scrapeRun { since_str := some "not-a-date" } [rowA]).2
        = .error "Invalid --since format. Use YYYY-MM-DD."
    ∧ Ev.fetch ∈ (scrapeRun { since_str := some "not-a-date" } [rowA]).1
    ∧ (scrapeRun { sort_by := some "salary" } [rowA]).2
        = .error "Invalid --sort. Choose: date, title, company, location"
    ∧ Ev.filter ∈ (scrapeRun { sort_by := some "salary" } [rowA]).1 := by
  exact ⟨rfl, by decide, rfl, by decide⟩

/-- C1 (amended): a malformed `since` string or unrecognized sort column
still fails the invocation with the configuration `ValueError` and
nothing is ever written — but only after the network request and
extraction have run (and, for the sort column, after the filter and
dedupe stages); a malformed `since` does fail before any row is
filtered. -/
theorem C1_amended (cfg : Cfg) (page : List Row) :
    (∀ s, cfg.since_str = some s → s ≠ "" → strptimeYmd s.data = none →
      scrapeRun cfg page
        = ([Ev.fetch, Ev.extract],
            .error "Invalid --since format. Use YYYY-MM-DD."))
    ∧ ∀ (sb : String) (d? : Option PyDate),
        parseSinceArg cfg.since_str = .ok d? → cfg.sort_by = some sb →
        sb ≠ "" → idx_map.lookup sb = none →
        (scrapeRun cfg page).1 = [Ev.fetch, Ev.extract, Ev.filter, Ev.dedupe]
        ∧ (scrapeRun cfg page).2
            = .error "Invalid --sort. Choose: date, title, company, location" := by
  constructor
  · intro s hs hne hparse
    have hp : parseSinceArg cfg.since_str
        = .error "Invalid --since format. Use YYYY-MM-DD." := by
      rw [hs]
      unfold parseSinceArg
      dsimp only
      rw [if_neg hne, hparse]
    simp only [scrapeRun, hp]
  · intro sb d? hps hsort hne hlook
    simp only [scrapeRun, hps, hsort, sortStage_invalid hne hlook]
    exact ⟨rfl, trivial⟩

/-- C1 witness: the amended behaviour at the concrete bad
configurations. -/
theorem C1_amended_witness :
    scrapeRun { since_str := some "not-a-date" } [rowA]
        = ([Ev.fetch, Ev.extract],
            .error "Invalid --since format. Use YYYY-MM-DD.")
    ∧ (scrapeRun { sort_by := some "salary" } [rowA]).1
        = [Ev.fetch, Ev.extract, Ev.filter, Ev.dedupe]
    ∧ (scrapeRun { sort_by := some "salary" } [rowA]).2
        = .error "Invalid --sort. Choose: date, title, company, location" := by
  refine ⟨?_, ?_, ?_⟩
  · exact (C1_amended { since_str := some "not-a-date" } [rowA]).1
      "not-a-date" rfl (by decide) (by decide)
  · exact ((C1_amended { sort_by := some "salary" } [rowA]).2
      "salary" none rfl rfl (by decide) (by decide)).1
  · exact ((C1_amended { sort_by := some "salary" } [rowA]).2
      "salary" none rfl rfl (by decide) (by decide)).2

end JobSearch
